import Mathlib

/-!
Verification development for the chesshook-intermediary server
(reductionfear/bmmbariol): a WebSocket bridge between many clients and a
single UCI chess-engine subprocess, with an optional "intelligence"
re-ranking layer for engine move candidates.

The Go source is embedded shallowly:
* float64 is modelled by `ℚ` (exact arithmetic; the float literals 0.3,
  1.2, 1.5 become the rationals 3/10, 6/5, 3/2);
* Go `int(x)` conversion from float truncates toward zero, modelled by
  `ratTruncToInt`;
* pointer-based in-place mutation becomes explicit state passing;
* the `notnil/chess` game object (external collaborator) enters only
  through `len(game.ValidMoves())`, modelled as a `Nat` parameter.
-/

/-- Truncation of a rational toward zero, the semantics of Go's
`int(f)` conversion from a float. -/
def ratTruncToInt (q : ℚ) : Int :=
  if 0 ≤ q then ⌊q⌋ else ⌈q⌉

/-- MoveCandidate, from `models/move.go`. Fields not touched by any of
the embedded operations (PV line, node counts, quality labels, the
remaining classification booleans) are carried where relevant and
omitted where they are pure payload. -/
structure MoveCandidate where
  Move : String
  FromSquare : String
  ToSquare : String
  ScoreCP : Int
  ScorePawns : ℚ
  Depth : Int
  MateIn : Option Int
  IsCapture : Bool
  IsCheck : Bool
  IsCastling : Bool
  IsEnPassant : Bool
  IsPromotion : Bool
  OriginalScorePawns : ℚ
  IntelligenceModified : Bool
  IntelligenceMultiplier : ℚ
  deriving Repr, DecidableEq

/-- NewMoveCandidate, from `models/move.go`: default-initialised
candidate. -/
def NewMoveCandidate (move fromSquare toSquare : String) : MoveCandidate :=
  { Move := move
    FromSquare := fromSquare
    ToSquare := toSquare
    ScoreCP := 0
    ScorePawns := 0
    Depth := 0
    MateIn := none
    IsCapture := false
    IsCheck := false
    IsCastling := false
    IsEnPassant := false
    IsPromotion := false
    OriginalScorePawns := 0
    IntelligenceModified := false
    IntelligenceMultiplier := 1 }

instance : Inhabited MoveCandidate := ⟨NewMoveCandidate "" "" ""⟩

/-- MoveCandidate.ApplyIntelligenceModification, from `models/move.go`:
stores the original score on first modification only, then overwrites
score (pawns and truncated centipawns), marks the candidate modified and
records the multiplier. -/
def MoveCandidate.ApplyIntelligenceModification
    (m : MoveCandidate) (newScorePawns multiplier : ℚ) : MoveCandidate :=
  let m' := if m.IntelligenceModified then m
            else { m with OriginalScorePawns := m.ScorePawns }
  { m' with
    ScorePawns := newScorePawns
    ScoreCP := ratTruncToInt (newScorePawns * 100)
    IntelligenceModified := true
    IntelligenceMultiplier := multiplier }

/-- IsForcedMate, from `utils/helpers.go`: a non-nil, non-zero mate-in
value. -/
def IsForcedMate (mateIn : Option Int) : Bool :=
  match mateIn with
  | none => false
  | some m => m ≠ 0

/-- IntelligenceSettings, from the intelligence package settings file. -/
structure IntelligenceSettings where
  IntelligenceEnabled : Bool
  AvoidLowIntelligence : Bool
  LowIntelligenceThreshold : ℚ
  AggressivenessContempt : ℚ
  PassivenessContempt : ℚ
  TradingPreference : ℚ
  CapturePreference : ℚ
  CastlePreference : ℚ
  EnPassantPreference : ℚ
  PromotionPreference : ℚ
  PreferEarlyCastling : Bool
  PreferPins : Bool
  PreferSideCastle : Bool
  CastleSide : Option String
  PawnPreference : ℚ
  KnightPreference : ℚ
  BishopPreference : ℚ
  RookPreference : ℚ
  QueenPreference : ℚ
  KingPreference : ℚ
  StayEqual : Bool
  StalemateProbability : ℚ
  AlwaysPromoteQueen : Bool
  CheckmateImmediately : Bool
  deriving Repr, DecidableEq

/-- NewDefaultIntelligenceSettings, from the settings file: all
multipliers 1.0, all toggles off, threshold -1.5. -/
def NewDefaultIntelligenceSettings : IntelligenceSettings :=
  { IntelligenceEnabled := false
    AvoidLowIntelligence := false
    LowIntelligenceThreshold := -(3/2)
    AggressivenessContempt := 1
    PassivenessContempt := 1
    TradingPreference := 0
    CapturePreference := 1
    CastlePreference := 1
    EnPassantPreference := 1
    PromotionPreference := 1
    PreferEarlyCastling := false
    PreferPins := false
    PreferSideCastle := false
    CastleSide := none
    PawnPreference := 1
    KnightPreference := 1
    BishopPreference := 1
    RookPreference := 1
    QueenPreference := 1
    KingPreference := 1
    StayEqual := false
    StalemateProbability := 0
    AlwaysPromoteQueen := false
    CheckmateImmediately := false }

/-- IntelligenceSettings.IsFullyDisabled, from the settings file. -/
def IntelligenceSettings.IsFullyDisabled (s : IntelligenceSettings) : Bool :=
  !s.IntelligenceEnabled

/-- IntelligenceSettings.ShouldAvoidLowIntelligence, from the settings
file. -/
def IntelligenceSettings.ShouldAvoidLowIntelligence (s : IntelligenceSettings) : Bool :=
  s.IntelligenceEnabled && s.AvoidLowIntelligence

/-- IntelligenceSettings.GetClampedThreshold, from the settings file:
clamp the configured avoidance threshold into [-3.0, -1.0]. -/
def IntelligenceSettings.GetClampedThreshold (s : IntelligenceSettings) : ℚ :=
  if s.LowIntelligenceThreshold < -3 then -3
  else if s.LowIntelligenceThreshold > -1 then -1
  else s.LowIntelligenceThreshold

/-- applyChessMultiplier, from the evaluator file: identity when the
multiplier is 1 or the eval is 0; in critical positions first compress
the multiplier toward 1 by the factor 0.3; then multiply positive evals
and divide negative evals. -/
def applyChessMultiplier (eval multiplier : ℚ) (isCritical : Bool) : ℚ :=
  if multiplier = 1 ∨ eval = 0 then eval
  else
    let multiplier :=
      if isCritical then
        if multiplier > 1 then 1 + (multiplier - 1) * (3/10)
        else 1 - (1 - multiplier) * (3/10)
      else multiplier
    if eval > 0 then eval * multiplier else eval / multiplier

/-- Evaluator.getPieceMultiplier, from the evaluator file: the source
returns the constant 1.0 (a stub: "we need board context to determine
piece type"). -/
def getPieceMultiplier (_s : IntelligenceSettings) (_c : MoveCandidate) : ℚ := 1

/-- Evaluator.getMoveCharacteristicMultiplier, from the evaluator file:
sequentially multiplies in capture, castling, en-passant, promotion and
check (aggressiveness) preferences according to the candidate's flags. -/
def getMoveCharacteristicMultiplier (s : IntelligenceSettings) (c : MoveCandidate) : ℚ :=
  let m : ℚ := 1
  let m := if c.IsCapture then m * s.CapturePreference else m
  let m := if c.IsCastling then m * s.CastlePreference else m
  let m := if c.IsEnPassant then m * s.EnPassantPreference else m
  let m := if c.IsPromotion then m * s.PromotionPreference else m
  let m := if c.IsCheck then m * s.AggressivenessContempt else m
  m

/-- Evaluator.applyMultipliers, from the evaluator file.
`validMovesCount` stands for `len(game.ValidMoves())`; the position is
critical when it is below three. -/
def applyMultipliers (s : IntelligenceSettings) (validMovesCount : Nat)
    (c : MoveCandidate) : MoveCandidate :=
  let isCritical := validMovesCount < 3
  let totalMultiplier : ℚ := 1 * getPieceMultiplier s c * getMoveCharacteristicMultiplier s c
  let newScore := applyChessMultiplier c.ScorePawns totalMultiplier isCritical
  c.ApplyIntelligenceModification newScore totalMultiplier

/-- One iteration of the candidate loop inside Evaluator.ApplyIntelligence:
forced-mate candidates get the absolute score ±1000 pawns (±100000
centipawns) and skip the multiplier machinery; all other candidates go
through `applyMultipliers`. -/
def evalStep (s : IntelligenceSettings) (validMovesCount : Nat)
    (c : MoveCandidate) : MoveCandidate :=
  if IsForcedMate c.MateIn then
    let sp : ℚ :=
      match c.MateIn with
      | some m => if m > 0 then 1000 else -1000
      | none => -1000
    { c with ScorePawns := sp, ScoreCP := ratTruncToInt (sp * 100) }
  else
    applyMultipliers s validMovesCount c

/-- Evaluator.ApplyIntelligence, from the evaluator file: return the
input unchanged when intelligence is disabled; otherwise run the
per-candidate pass, and if avoidance is active and the (post-pass) best
score is at or below the clamped threshold, return the pre-pass
originals. The Go code clones the candidates before the pass; in this
pure embedding the input list itself plays the role of the clones. -/
def ApplyIntelligence (s : IntelligenceSettings) (validMovesCount : Nat)
    (candidates : List MoveCandidate) : List MoveCandidate :=
  if s.IsFullyDisabled then candidates
  else
    let originalCandidates := candidates
    let modified := candidates.map (evalStep s validMovesCount)
    if s.ShouldAvoidLowIntelligence && decide (0 < modified.length) then
      if (modified.headD default).ScorePawns ≤ s.GetClampedThreshold then
        originalCandidates
      else modified
    else modified

/-- PieceType, standing for `chess.PieceType` of the external chess
library: only its enumeration role matters here. -/
inductive PieceType where
  | pawn | knight | bishop | rook | queen | king | noPieceType
  deriving Repr, DecidableEq

/-- MultiplierCalculator.GetPieceMultiplier, from `multipliers.go`:
per-piece-type preference. -/
def GetPieceMultiplier (s : IntelligenceSettings) (pieceType : PieceType) : ℚ :=
  match pieceType with
  | .pawn => s.PawnPreference
  | .knight => s.KnightPreference
  | .bishop => s.BishopPreference
  | .rook => s.RookPreference
  | .queen => s.QueenPreference
  | .king => s.KingPreference
  | .noPieceType => 1

/-- MultiplierCalculator.GetCaptureMultiplier, from `multipliers.go`. -/
def GetCaptureMultiplier (s : IntelligenceSettings) : ℚ := s.CapturePreference

/-- MultiplierCalculator.GetCastlingMultiplier, from `multipliers.go`:
castle preference, times 1.2 when the castle side matches the configured
preferred side. -/
def GetCastlingMultiplier (s : IntelligenceSettings) (isKingside : Bool) : ℚ :=
  let baseMultiplier := s.CastlePreference
  if s.PreferSideCastle then
    match s.CastleSide with
    | some side =>
        if side = "kingside" ∧ isKingside then baseMultiplier * (6/5)
        else if side = "queenside" ∧ ¬isKingside then baseMultiplier * (6/5)
        else baseMultiplier
    | none => baseMultiplier
  else baseMultiplier

/-- MultiplierCalculator.GetPromotionMultiplier, from `multipliers.go`:
promotion preference, times 1.5 for a queen promotion when
always-promote-queen is set. -/
def GetPromotionMultiplier (s : IntelligenceSettings) (promoPiece : PieceType) : ℚ :=
  let baseMultiplier := s.PromotionPreference
  if s.AlwaysPromoteQueen ∧ promoPiece = .queen then baseMultiplier * (3/2)
  else baseMultiplier

/-- MultiplierCalculator.GetEnPassantMultiplier, from `multipliers.go`. -/
def GetEnPassantMultiplier (s : IntelligenceSettings) : ℚ := s.EnPassantPreference

/-- MultiplierCalculator.GetAggressivenessMultiplier, from
`multipliers.go`. -/
def GetAggressivenessMultiplier (s : IntelligenceSettings) : ℚ := s.AggressivenessContempt

/-- MultiplierCalculator.CalculateTotalMultiplier, from
`multipliers.go`: the full composite multiplier, with castle-side and
queen-promotion bonuses. This calculator exists in the repository but is
never invoked by Evaluator.applyMultipliers. -/
def CalculateTotalMultiplier (s : IntelligenceSettings) (pieceType : PieceType)
    (isCapture isCastling isEnPassant isPromotion isCheck isKingside : Bool)
    (promoPiece : PieceType) : ℚ :=
  let m : ℚ := 1
  let m := m * GetPieceMultiplier s pieceType
  let m := if isCapture then m * GetCaptureMultiplier s else m
  let m := if isCastling then m * GetCastlingMultiplier s isKingside else m
  let m := if isEnPassant then m * GetEnPassantMultiplier s else m
  let m := if isPromotion then m * GetPromotionMultiplier s promoPiece else m
  let m := if isCheck then m * GetAggressivenessMultiplier s else m
  m

/-- maxFailedAttempts, from `server/auth.go`. -/
def maxFailedAttempts : Nat := 3

/-- AuthManager, from `server/auth.go` (the passkey is immutable after
construction; the mutex is concurrency plumbing with no logical
content). -/
structure AuthManager where
  passKey : String
  requireAuthWrite : Bool
  requireAuthRead : Bool
  localhostBypass : Bool
  deriving Repr, DecidableEq

/-- AuthManager.ValidateAuth, from `server/auth.go`: plain string
equality against the passkey. -/
def AuthManager.ValidateAuth (a : AuthManager) (providedKey : String) : Bool :=
  providedKey = a.passKey

/-- AuthManager.RequiresAuthForWrite, from `server/auth.go`. -/
def AuthManager.RequiresAuthForWrite (a : AuthManager) : Bool := a.requireAuthWrite

/-- AuthManager.RequiresAuthForRead, from `server/auth.go`. -/
def AuthManager.RequiresAuthForRead (a : AuthManager) : Bool := a.requireAuthRead

/-- UserSession, from `server/auth.go`. -/
structure UserSession where
  isAuthenticated : Bool
  incorrectAttempts : Nat
  isSubscribed : Bool
  hasLock : Bool
  deriving Repr, DecidableEq

/-- NewUserSession, from `server/auth.go`: fresh session, authenticated
only when the localhost-bypass grants auto-auth. -/
def NewUserSession (autoAuth : Bool) : UserSession :=
  { isAuthenticated := autoAuth
    incorrectAttempts := 0
    isSubscribed := false
    hasLock := false }

/-- UserSession.Authenticate, from `server/auth.go`. -/
def UserSession.Authenticate (u : UserSession) : UserSession :=
  { u with isAuthenticated := true }

/-- UserSession.IncrementFailedAttempts, from `server/auth.go`: bumps
the counter and returns its new value. -/
def UserSession.IncrementFailedAttempts (u : UserSession) : Nat × UserSession :=
  (u.incorrectAttempts + 1, { u with incorrectAttempts := u.incorrectAttempts + 1 })

/-- UserSession.IsBlocked, from `server/auth.go`: three or more failed
attempts block the session. -/
def UserSession.IsBlocked (u : UserSession) : Bool :=
  u.incorrectAttempts ≥ maxFailedAttempts

/-- UserSession.Subscribe, from `server/auth.go`: fails when already
subscribed. -/
def UserSession.Subscribe (u : UserSession) : Bool × UserSession :=
  if u.isSubscribed then (false, u)
  else (true, { u with isSubscribed := true })

/-- UserSession.Unsubscribe, from `server/auth.go`: fails when not
subscribed. -/
def UserSession.Unsubscribe (u : UserSession) : Bool × UserSession :=
  if ¬u.isSubscribed then (false, u)
  else (true, { u with isSubscribed := false })

/-- UserSession.AcquireLock, from `server/auth.go`. -/
def UserSession.AcquireLock (u : UserSession) : UserSession :=
  { u with hasLock := true }

/-- UserSession.ReleaseLock, from `server/auth.go`. -/
def UserSession.ReleaseLock (u : UserSession) : UserSession :=
  { u with hasLock := false }

/-- Lookup in the connection registry (Go map access), connections keyed
by an abstract identifier standing for the `*websocket.Conn` pointer. -/
def lookupConn : List (Nat × UserSession) → Nat → Option UserSession
  | [], _ => none
  | (k, v) :: rest, c => if k = c then some v else lookupConn rest c

/-- Deletion from the connection registry (Go `delete(m.connections, conn)`). -/
def eraseConn (c : Nat) : List (Nat × UserSession) → List (Nat × UserSession)
  | [] => []
  | (k, v) :: rest => if k = c then eraseConn c rest else (k, v) :: eraseConn c rest

/-- In-place update of one registered session (Go mutates the session
behind the pointer stored in the map). -/
def updateConn (c : Nat) (f : UserSession → UserSession) :
    List (Nat × UserSession) → List (Nat × UserSession)
  | [] => []
  | (k, v) :: rest => if k = c then (k, f v) :: rest else (k, v) :: updateConn c f rest

/-- ConnectionManager, from `server/connection.go`: registry of live
connections plus the single exclusive engine-lock token. -/
structure ConnectionManager where
  connections : List (Nat × UserSession)
  engineLocked : Bool
  lockHolder : Option Nat
  deriving Repr, DecidableEq

/-- NewConnectionManager, from `server/connection.go`. -/
def NewConnectionManager : ConnectionManager :=
  { connections := [], engineLocked := false, lockHolder := none }

/-- ConnectionManager.AddConnection, from `server/connection.go` (Go map
assignment overwrites any entry under the same key). -/
def ConnectionManager.AddConnection (m : ConnectionManager) (conn : Nat)
    (session : UserSession) : ConnectionManager :=
  { m with connections := (conn, session) :: eraseConn conn m.connections }

/-- ConnectionManager.TryAcquireEngineLock, from `server/connection.go`:
fails when the lock is held; otherwise takes the token, records the
holder and flags the holder's registered session. -/
def ConnectionManager.TryAcquireEngineLock (m : ConnectionManager) (conn : Nat) :
    Bool × ConnectionManager :=
  if m.engineLocked then (false, m)
  else
    let conns :=
      match lookupConn m.connections conn with
      | some _ => updateConn conn (fun s => s.AcquireLock) m.connections
      | none => m.connections
    (true, { m with engineLocked := true, lockHolder := some conn, connections := conns })

/-- ConnectionManager.releaseEngineLockInternal, from
`server/connection.go`: succeeds only for the current holder; the
session's own flag is deliberately left to the caller (a comment in the
source records this). -/
def ConnectionManager.releaseEngineLockInternal (m : ConnectionManager) (conn : Nat) :
    Bool × ConnectionManager :=
  if m.engineLocked = false ∨ m.lockHolder ≠ some conn then (false, m)
  else (true, { m with engineLocked := false, lockHolder := none })

/-- ConnectionManager.ReleaseEngineLock, from `server/connection.go`. -/
def ConnectionManager.ReleaseEngineLock (m : ConnectionManager) (conn : Nat) :
    Bool × ConnectionManager :=
  m.releaseEngineLockInternal conn

/-- ConnectionManager.RemoveConnection, from `server/connection.go`:
releases the engine lock when the departing session holds it, then
deletes the registry entry. -/
def ConnectionManager.RemoveConnection (m : ConnectionManager) (conn : Nat) :
    ConnectionManager :=
  match lookupConn m.connections conn with
  | none => m
  | some session =>
      let m' := if session.hasLock then (m.releaseEngineLockInternal conn).2 else m
      { m' with connections := eraseConn conn m'.connections }

/-- Combined server state seen by the message handler: the auth manager,
the connection manager, the engine name and the bounded engine input
channel (`make(chan string, 10)` in `main.go`; the capacity is kept as a
parameter). -/
structure ServerState where
  authManager : AuthManager
  connManager : ConnectionManager
  engineName : String
  engineQueue : List String
  engineQueueCapacity : Nat
  deriving Repr, DecidableEq

/-- Replacement of one connection's session inside the server state
(models Go mutation of the shared session object). -/
def setSession (st : ServerState) (conn : Nat) (s : UserSession) : ServerState :=
  { st with connManager :=
      { st.connManager with
        connections := updateConn conn (fun _ => s) st.connManager.connections } }

/-- Model of Go's whitespace test used by `strings.TrimSpace` (the
protocol traffic is ASCII; the unicode spaces Go additionally trims do
not occur in it). -/
def isSpaceChar (c : Char) : Bool := c = ' ' ∨ c = '\t' ∨ c = '\n' ∨ c = '\r'

/-- Model of Go's `strings.TrimSpace`: strip leading and trailing
whitespace. -/
def trimSpace (s : String) : String :=
  ⟨((s.data.dropWhile isSpaceChar).reverse.dropWhile isSpaceChar).reverse⟩

/-- Model of Go's `strings.Split(message, " ")`: split on every single
space, keeping empty fields. -/
def splitSpaces (s : String) : List String :=
  (s.data.splitOn ' ').map (fun l => ⟨l⟩)

/-- MessageHandler.handleAuth, from the message-handler file: a bare
`auth` line fails without touching the counter; a blocked session always
fails; a correct key authenticates; a wrong key bumps the counter. -/
def handleAuth (a : AuthManager) (parts : List String) (session : UserSession) :
    String × UserSession :=
  if parts.length < 2 then ("autherr", session)
  else
    let providedKey := parts.getD 1 ""
    if session.IsBlocked then ("autherr", session)
    else if a.ValidateAuth providedKey then ("authok", session.Authenticate)
    else ("autherr", session.IncrementFailedAttempts.2)

/-- MessageHandler.handleUCICommand, from the message-handler file:
write-auth gate, then non-blocking enqueue onto the bounded engine input
channel (drop when full); never a synchronous reply on success. -/
def handleUCICommand (st : ServerState) (message : String) (session : UserSession) :
    (String × Bool) × ServerState :=
  if st.authManager.RequiresAuthForWrite && !session.isAuthenticated then
    (("autherr", true), st)
  else if st.engineQueue.length < st.engineQueueCapacity then
    (("", false), { st with engineQueue := st.engineQueue ++ [message] })
  else
    (("", false), st)

/-- MessageHandler.HandleMessage, from the message-handler file: trim,
split on single spaces, dispatch on the first token; unknown commands
fall through to `handleUCICommand`. The connection's session is looked
up in the registry (in Go the `Connection` object carries it). -/
def HandleMessage (st : ServerState) (conn : Nat) (message : String) :
    (String × Bool) × ServerState :=
  let message := trimSpace message
  if message = "" then (("", false), st)
  else
    let parts := splitSpaces message
    let command := parts.headD ""
    match lookupConn st.connManager.connections conn with
    | none => (("", false), st)
    | some session =>
      if command = "whoareyou" then
        (("iam chesshook-intermediaryv1", true), st)
      else if command = "whatengine" then
        if st.authManager.RequiresAuthForRead && !session.isAuthenticated then
          (("autherr", true), st)
        else (("engine " ++ st.engineName, true), st)
      else if command = "auth" then
        let r := handleAuth st.authManager parts session
        ((r.1, true), setSession st conn r.2)
      else if command = "sub" then
        if st.authManager.RequiresAuthForRead && !session.isAuthenticated then
          (("autherr", true), st)
        else
          let r := session.Subscribe
          if r.1 then (("subok", true), setSession st conn r.2)
          else (("suberr", true), setSession st conn r.2)
      else if command = "unsub" then
        if st.authManager.RequiresAuthForRead && !session.isAuthenticated then
          (("autherr", true), st)
        else
          let r := session.Unsubscribe
          if r.1 then (("unsubok", true), setSession st conn r.2)
          else (("unsuberr", true), setSession st conn r.2)
      else if command = "lock" then
        if st.authManager.RequiresAuthForWrite && !session.isAuthenticated then
          (("autherr", true), st)
        else
          let r := st.connManager.TryAcquireEngineLock conn
          if r.1 then (("lockok", true), { st with connManager := r.2 })
          else (("lockerr", true), { st with connManager := r.2 })
      else if command = "unlock" then
        if st.authManager.RequiresAuthForWrite && !session.isAuthenticated then
          (("autherr", true), st)
        else if ¬session.hasLock then (("unlockerr", true), st)
        else
          let r := st.connManager.ReleaseEngineLock conn
          if r.1 then
            (("unlockok", true),
             setSession { st with connManager := r.2 } conn session.ReleaseLock)
          else (("unlockerr", true), { st with connManager := r.2 })
      else
        handleUCICommand st message session

/-- Criticality damping as the spec words it: a multiplier above 1
becomes `1 + (m-1)*0.3`, a multiplier below 1 becomes `1 - (1-m)*0.3`
(at exactly 1 the damping is never consulted). -/
def compressTowardOne (m : ℚ) : ℚ :=
  if m > 1 then 1 + (m - 1) * (3/10) else 1 - (1 - m) * (3/10)

/-- Composite multiplier the evaluator actually applies to a non-mate
candidate, written as a plain product over the candidate's
classification flags. -/
def evaluatorMultiplier (s : IntelligenceSettings) (c : MoveCandidate) : ℚ :=
  (if c.IsCapture then s.CapturePreference else 1) *
  (if c.IsCastling then s.CastlePreference else 1) *
  (if c.IsEnPassant then s.EnPassantPreference else 1) *
  (if c.IsPromotion then s.PromotionPreference else 1) *
  (if c.IsCheck then s.AggressivenessContempt else 1)

/-- Descending order by modified score, the property the spec asserts of
the evaluator's output list. -/
def SortedDescByScore (l : List MoveCandidate) : Prop :=
  List.Pairwise (fun a b => b.ScorePawns ≤ a.ScorePawns) l

/-- Session state after three auth commands carrying the keys k1, k2, k3
have been handled in order. -/
def afterThreeAuths (a : AuthManager) (s : UserSession) (k1 k2 k3 : String) : UserSession :=
  (handleAuth a ["auth", k3]
    ((handleAuth a ["auth", k2]
      ((handleAuth a ["auth", k1] s).2)).2)).2

/-- Responses produced by a sequence of auth commands on one session,
threading the session state through `handleAuth`. -/
def authResponses (a : AuthManager) : UserSession → List (List String) → List String
  | _, [] => []
  | s, parts :: rest =>
      (handleAuth a parts s).1 :: authResponses a (handleAuth a parts s).2 rest

/-- Effect of the unlock command on the connection manager, from
MessageHandler.handleUnlock: nothing without the session flag, otherwise
release the token and clear the session flag on success. -/
def handleUnlockLock (m : ConnectionManager) (conn : Nat) : ConnectionManager :=
  match lookupConn m.connections conn with
  | none => m
  | some session =>
      if ¬session.hasLock then m
      else
        let r := m.ReleaseEngineLock conn
        if r.1 then
          { r.2 with connections := updateConn conn (fun u => u.ReleaseLock) r.2.connections }
        else r.2

/-- Transitions of the connection manager as driven by the server:
accepting a connection (distinct transport pointers, hence a fresh key),
the lock and unlock commands issued by a registered connection, and
disconnect teardown. -/
inductive ServerStep : ConnectionManager → ConnectionManager → Prop where
  | add (m : ConnectionManager) (conn : Nat) (autoAuth : Bool)
      (hfresh : lookupConn m.connections conn = none) :
      ServerStep m (m.AddConnection conn (NewUserSession autoAuth))
  | lockCmd (m : ConnectionManager) (conn : Nat)
      (hreg : (lookupConn m.connections conn).isSome = true) :
      ServerStep m (m.TryAcquireEngineLock conn).2
  | unlockCmd (m : ConnectionManager) (conn : Nat) :
      ServerStep m (handleUnlockLock m conn)
  | remove (m : ConnectionManager) (conn : Nat) :
      ServerStep m (m.RemoveConnection conn)

/-- Connection-manager states reachable from `NewConnectionManager`
under `ServerStep`. -/
inductive ReachableCM : ConnectionManager → Prop where
  | init : ReachableCM NewConnectionManager
  | step (m m' : ConnectionManager) (h : ReachableCM m) (hs : ServerStep m m') : ReachableCM m'

/-- Engine-lock consistency: the locked flag and the holder field agree,
the holder is a registered session flagged as holding, and a flagged
registered session is the holder. -/
def LockInv (m : ConnectionManager) : Prop :=
  (m.engineLocked = true ↔ m.lockHolder ≠ none) ∧
  (∀ c, m.lockHolder = some c →
     ∃ s, lookupConn m.connections c = some s ∧ s.hasLock = true) ∧
  (∀ c s, lookupConn m.connections c = some s → s.hasLock = true →
     m.lockHolder = some c)

/-- Default settings with the intelligence master toggle switched on. -/
def sEnabled : IntelligenceSettings :=
  { NewDefaultIntelligenceSettings with IntelligenceEnabled := true }

/-- Example candidate: a quiet move worth half a pawn. -/
def cHalfEx : MoveCandidate :=
  { NewMoveCandidate "e2e4" "e2" "e4" with ScorePawns := 1/2, ScoreCP := 50 }

/-- Example candidate: mate in one for the mover. -/
def cMateEx : MoveCandidate :=
  { NewMoveCandidate "d8h4" "d8" "h4" with
    ScorePawns := 99, ScoreCP := 9900, MateIn := some 1 }

/-- Example candidate: a badly losing quiet move. -/
def cLowEx : MoveCandidate :=
  { NewMoveCandidate "a2a3" "a2" "a3" with ScorePawns := -5, ScoreCP := -500 }

/-- Settings with intelligence and avoidance enabled (threshold at its
default -1.5). -/
def sAvoidEx : IntelligenceSettings :=
  { NewDefaultIntelligenceSettings with
    IntelligenceEnabled := true, AvoidLowIntelligence := true }

/-- Settings exercising the piece preference and the castle-side bonus:
the king-move preference is 3, the castle preference 2, and kingside is
the configured preferred side. -/
def sCastleEx : IntelligenceSettings :=
  { NewDefaultIntelligenceSettings with
    IntelligenceEnabled := true
    KingPreference := 3
    CastlePreference := 2
    PreferSideCastle := true
    CastleSide := some "kingside" }

/-- Example candidate: kingside castling (a king move), eval one pawn. -/
def cCastleEx : MoveCandidate :=
  { NewMoveCandidate "e1g1" "e1" "g1" with
    ScorePawns := 1
    ScoreCP := 100
    IsCastling := true }

/-- Example auth manager with a fixed passkey and write-auth required. -/
def exAuthMgr : AuthManager :=
  { passKey := "secret", requireAuthWrite := true, requireAuthRead := false,
    localhostBypass := false }

/-- Example server state: one unauthenticated connection (key 7), empty
engine queue of capacity 10. -/
def stEx : ServerState :=
  { authManager := exAuthMgr
    connManager := NewConnectionManager.AddConnection 7 (NewUserSession false)
    engineName := "Stockfish"
    engineQueue := []
    engineQueueCapacity := 10 }

/-- Example server state: as `stEx` but the session is authenticated. -/
def stExAuthed : ServerState :=
  setSession stEx 7 { NewUserSession false with isAuthenticated := true }

/-- Example manager state: connections 0 and 1 registered, the engine
lock held by connection 0. -/
def mgrLockedEx : ConnectionManager :=
  (((NewConnectionManager.AddConnection 0 (NewUserSession false)).AddConnection 1
      (NewUserSession false)).TryAcquireEngineLock 0).2

lemma lookupConn_updateConn_self (c : Nat) (f : UserSession → UserSession)
    (l : List (Nat × UserSession)) :
    lookupConn (updateConn c f l) c = (lookupConn l c).map f := by
  induction l with
  | nil => rfl
  | cons kv rest ih =>
      obtain ⟨k, v⟩ := kv
      by_cases hk : k = c
      · simp [updateConn, lookupConn, hk]
      · simp [updateConn, lookupConn, hk, ih]

lemma lookupConn_updateConn_ne (c d : Nat) (f : UserSession → UserSession)
    (l : List (Nat × UserSession)) (h : d ≠ c) :
    lookupConn (updateConn c f l) d = lookupConn l d := by
  induction l with
  | nil => rfl
  | cons kv rest ih =>
      obtain ⟨k, v⟩ := kv
      by_cases hk : k = c
      · subst hk
        simp [updateConn, lookupConn, Ne.symm h]
      · simp [updateConn, lookupConn, hk, ih]

lemma lookupConn_eraseConn_self (c : Nat) (l : List (Nat × UserSession)) :
    lookupConn (eraseConn c l) c = none := by
  induction l with
  | nil => rfl
  | cons kv rest ih =>
      obtain ⟨k, v⟩ := kv
      by_cases hk : k = c
      · simp [eraseConn, hk, ih]
      · simp [eraseConn, lookupConn, hk, ih]

lemma lookupConn_eraseConn_ne (c d : Nat) (l : List (Nat × UserSession)) (h : d ≠ c) :
    lookupConn (eraseConn c l) d = lookupConn l d := by
  induction l with
  | nil => rfl
  | cons kv rest ih =>
      obtain ⟨k, v⟩ := kv
      by_cases hk : k = c
      · subst hk
        simp [eraseConn, lookupConn, Ne.symm h, ih]
      · simp [eraseConn, lookupConn, hk, ih]

/-- C2: applyChessMultiplier is the identity when the multiplier is 1 or
the eval is 0; otherwise it multiplies positive evals by the multiplier
and divides negative evals by it, first compressing the multiplier
toward 1 by the factor 0.3 in critical positions. In particular
eval 0.5 with multiplier 1.5 yields 0.75 and eval -0.5 with multiplier
1.5 yields -1/3. -/
theorem applyChessMultiplier_correct (eval mult : ℚ) (crit : Bool) :
    (mult = 1 → applyChessMultiplier eval mult crit = eval) ∧
    (eval = 0 → applyChessMultiplier eval mult crit = eval) ∧
    (0 < eval → mult ≠ 1 → applyChessMultiplier eval mult false = eval * mult) ∧
    (eval < 0 → mult ≠ 1 → applyChessMultiplier eval mult false = eval / mult) ∧
    (0 < eval → mult ≠ 1 →
       applyChessMultiplier eval mult true = eval * compressTowardOne mult) ∧
    (eval < 0 → mult ≠ 1 →
       applyChessMultiplier eval mult true = eval / compressTowardOne mult) ∧
    applyChessMultiplier (1/2) (3/2) false = 3/4 ∧
    applyChessMultiplier (-(1/2)) (3/2) false = -(1/3) := by
  refine ⟨?_, ?_, ?_, ?_, ?_, ?_, ?_, ?_⟩
  · intro h; simp [applyChessMultiplier, h]
  · intro h; simp [applyChessMultiplier, h]
  · intro h1 h2
    simp [applyChessMultiplier, h2, ne_of_gt h1, h1]
  · intro h1 h2
    have hng : ¬ (0 < eval) := not_lt_of_gt h1
    simp [applyChessMultiplier, h2, ne_of_lt h1, hng]
  · intro h1 h2
    simp [applyChessMultiplier, compressTowardOne, h2, ne_of_gt h1, h1]
  · intro h1 h2
    have hng : ¬ (0 < eval) := not_lt_of_gt h1
    simp [applyChessMultiplier, compressTowardOne, h2, ne_of_lt h1, hng]
  · norm_num [applyChessMultiplier]
  · norm_num [applyChessMultiplier]

/-- Witness for C2 at eval 0.5, multiplier 1.5, non-critical. -/
theorem applyChessMultiplier_correct_witness :
    applyChessMultiplier (1/2) (3/2) false = (1/2) * (3/2) :=
  (applyChessMultiplier_correct (1/2) (3/2) false).2.2.1 (by norm_num) (by norm_num)

/-- C10: a bare `auth` line (no key argument) is rejected with the
auth-error token while the session, in particular its failed-attempt
counter, is left untouched, both at the `handleAuth` level and through
the full message dispatch. -/
theorem handleAuth_bare_auth_no_penalty (a : AuthManager) (s : UserSession) :
    (handleAuth a ["auth"] s).1 = "autherr" ∧
    (handleAuth a ["auth"] s).2 = s ∧
    (handleAuth a ["auth"] s).2.incorrectAttempts = s.incorrectAttempts ∧
    (∀ (st : ServerState) (conn : Nat) (sess : UserSession),
       lookupConn st.connManager.connections conn = some sess →
       (HandleMessage st conn "auth").1 = ("autherr", true) ∧
       lookupConn (HandleMessage st conn "auth").2.connManager.connections conn
         = some sess) := by
  refine ⟨rfl, rfl, rfl, ?_⟩
  intro st conn sess h
  have ht : trimSpace "auth" = "auth" := by decide
  have hs : splitSpaces "auth" = ["auth"] := by decide
  have hne : ¬ (("auth" : String) = "") := by decide
  have h1 : ¬ (("auth" : String) = "whoareyou") := by decide
  have h2 : ¬ (("auth" : String) = "whatengine") := by decide
  simp only [HandleMessage, ht, hs, List.headD, if_neg hne, h]
  simp only [if_neg h1, if_neg h2, if_pos rfl]
  constructor
  · simp [handleAuth]
  · simp [handleAuth, setSession, lookupConn_updateConn_self, h]

lemma evalStep_evalStep_original (s : IntelligenceSettings) (vmc : Nat) (c : MoveCandidate) :
    (evalStep s vmc (evalStep s vmc c)).OriginalScorePawns
      = (evalStep s vmc c).OriginalScorePawns := by
  by_cases h : IsForcedMate c.MateIn
  · simp [evalStep, h]
  · cases hm : c.IntelligenceModified <;>
      simp [evalStep, h, applyMultipliers, MoveCandidate.ApplyIntelligenceModification, hm]

/-- C8: OriginalScorePawns is written exactly once, on the first
modification: it captures the pre-modification score, a second
application of ApplyIntelligenceModification leaves it unchanged, and so
does a second pass of the evaluator, per candidate and over a whole
candidate list. -/
theorem originalScore_written_once (c : MoveCandidate) (n1 m1 n2 m2 : ℚ) :
    (c.IntelligenceModified = false →
       (c.ApplyIntelligenceModification n1 m1).OriginalScorePawns = c.ScorePawns) ∧
    ((c.ApplyIntelligenceModification n1 m1).ApplyIntelligenceModification n2 m2).OriginalScorePawns
       = (c.ApplyIntelligenceModification n1 m1).OriginalScorePawns ∧
    (∀ (s : IntelligenceSettings) (vmc : Nat),
       (evalStep s vmc (evalStep s vmc c)).OriginalScorePawns
         = (evalStep s vmc c).OriginalScorePawns) ∧
    (∀ (s : IntelligenceSettings) (vmc : Nat) (cs : List MoveCandidate),
       s.AvoidLowIntelligence = false →
       (ApplyIntelligence s vmc (ApplyIntelligence s vmc cs)).map
           (fun d => d.OriginalScorePawns)
         = (ApplyIntelligence s vmc cs).map (fun d => d.OriginalScorePawns)) := by
  refine ⟨?_, ?_, ?_, ?_⟩
  · intro h
    simp [MoveCandidate.ApplyIntelligenceModification, h]
  · simp [MoveCandidate.ApplyIntelligenceModification]
  · intro s vmc
    exact evalStep_evalStep_original s vmc c
  · intro s vmc cs hav
    cases hdis : s.IsFullyDisabled with
    | true => simp [ApplyIntelligence, hdis]
    | false =>
        have hsa : s.ShouldAvoidLowIntelligence = false := by
          simp [IntelligenceSettings.ShouldAvoidLowIntelligence, hav]
        simp only [ApplyIntelligence, hdis, hsa, Bool.false_and, Bool.false_eq_true,
          if_false, List.map_map]
        apply List.map_congr_left
        intro a _
        exact evalStep_evalStep_original s vmc a

/-- Witness for C8: on a fresh (unmodified) candidate the first
modification records the current score as the original. -/
theorem originalScore_written_once_witness :
    (cHalfEx.ApplyIntelligenceModification 2 3).OriginalScorePawns = cHalfEx.ScorePawns :=
  (originalScore_written_once cHalfEx 2 3 0 0).1 rfl

lemma getMoveCharacteristicMultiplier_eq (s : IntelligenceSettings) (c : MoveCandidate) :
    getMoveCharacteristicMultiplier s c = evaluatorMultiplier s c := by
  unfold getMoveCharacteristicMultiplier evaluatorMultiplier
  cases c.IsCapture <;> cases c.IsCastling <;> cases c.IsEnPassant <;>
    cases c.IsPromotion <;> cases c.IsCheck <;> simp

/-- C5 (amended): the composite multiplier the evaluator actually
applies to a non-mate candidate is the product of the capture, castle,
en-passant, promotion and check (aggressiveness) preferences selected by
the candidate's flags; the per-moved-piece factor is the stub constant 1
and no castle-side or queen-promotion bonus enters, and the modified
score applies exactly this composite through applyChessMultiplier. -/
theorem evaluator_composite_multiplier (s : IntelligenceSettings) (vmc : Nat)
    (c : MoveCandidate) :
    (applyMultipliers s vmc c).IntelligenceMultiplier = evaluatorMultiplier s c ∧
    (applyMultipliers s vmc c).ScorePawns =
      applyChessMultiplier c.ScorePawns (evaluatorMultiplier s c) (decide (vmc < 3)) := by
  constructor <;>
    simp [applyMultipliers, MoveCandidate.ApplyIntelligenceModification,
      getPieceMultiplier, getMoveCharacteristicMultiplier_eq]

/-- Counterexample for C5 as stated: for a kingside castle under
settings with king preference 3, castle preference 2 and kingside as the
preferred castle side, the evaluator applies multiplier 2, while the
claimed composite (piece preference times side-boosted castle
preference, as computed by the repository's own CalculateTotalMultiplier)
is 3 * (2 * 1.2) = 36/5. -/
theorem evaluator_composite_multiplier_cex :
    (applyMultipliers sCastleEx 30 cCastleEx).IntelligenceMultiplier = 2 ∧
    CalculateTotalMultiplier sCastleEx .king false true false false false true .noPieceType
      = 36/5 ∧
    (2 : ℚ) ≠ 36/5 := by
  refine ⟨?_, ?_, by norm_num⟩
  · norm_num [applyMultipliers, MoveCandidate.ApplyIntelligenceModification,
      getPieceMultiplier, getMoveCharacteristicMultiplier, sCastleEx, cCastleEx,
      NewDefaultIntelligenceSettings, NewMoveCandidate]
  · norm_num [CalculateTotalMultiplier, GetPieceMultiplier, GetCaptureMultiplier,
      GetCastlingMultiplier, GetPromotionMultiplier, GetEnPassantMultiplier,
      GetAggressivenessMultiplier, sCastleEx, NewDefaultIntelligenceSettings]

/-- C1 (failing-input evaluation): with intelligence enabled and a list
holding a 0.5-pawn quiet move followed by a mate-in-one, the evaluator
returns the candidates in input order with scores [0.5, 1000]: the
output is not sorted descending and the forced-mate candidate stays
behind a non-mate candidate. -/
theorem applyIntelligence_does_not_resort :
    (ApplyIntelligence sEnabled 30 [cHalfEx, cMateEx]).map (fun d => d.ScorePawns)
      = [1/2, 1000] ∧
    (ApplyIntelligence sEnabled 30 [cHalfEx, cMateEx]).map (fun d => IsForcedMate d.MateIn)
      = [false, true] ∧
    ¬ SortedDescByScore (ApplyIntelligence sEnabled 30 [cHalfEx, cMateEx]) := by
  refine ⟨?_, ?_, ?_⟩ <;>
    norm_num [ApplyIntelligence, evalStep, applyMultipliers, applyChessMultiplier,
      getPieceMultiplier, getMoveCharacteristicMultiplier,
      MoveCandidate.ApplyIntelligenceModification, IsForcedMate,
      IntelligenceSettings.IsFullyDisabled, IntelligenceSettings.ShouldAvoidLowIntelligence,
      sEnabled, cHalfEx, cMateEx, NewDefaultIntelligenceSettings, NewMoveCandidate,
      ratTruncToInt, SortedDescByScore, List.pairwise_cons]

lemma floor_100000_q : (⌊(100000 : ℚ)⌋ : ℤ) = 100000 := by
  rw [show ((100000:ℚ)) = ((100000 : ℤ) : ℚ) by norm_num]
  exact Int.floor_intCast _

lemma ceil_neg_100000_q : (⌈(-100000 : ℚ)⌉ : ℤ) = -100000 := by
  rw [show ((-100000:ℚ)) = ((-100000 : ℤ) : ℚ) by norm_num]
  exact Int.ceil_intCast _

/-- C3: with intelligence enabled (and the avoidance fallback not in
play), the evaluator's pass maps every candidate, and a candidate whose
MateIn is non-nil and non-zero gets score exactly +1000 pawns (ScoreCP
100000) for a positive mate-in and -1000 pawns (ScoreCP -100000) for a
negative one, while its multiplier and modified flags are untouched: no
multiplier is applied to it. -/
theorem applyIntelligence_forced_mate
    (s : IntelligenceSettings) (vmc : Nat) (cs : List MoveCandidate)
    (hen : s.IsFullyDisabled = false)
    (hav : s.ShouldAvoidLowIntelligence = false) :
    ApplyIntelligence s vmc cs = cs.map (evalStep s vmc) ∧
    (∀ (c : MoveCandidate) (m : Int), c.MateIn = some m → m ≠ 0 →
      (evalStep s vmc c).ScorePawns = (if 0 < m then (1000:ℚ) else -1000) ∧
      (evalStep s vmc c).ScoreCP = (if 0 < m then (100000:Int) else -100000) ∧
      (evalStep s vmc c).IntelligenceMultiplier = c.IntelligenceMultiplier ∧
      (evalStep s vmc c).IntelligenceModified = c.IntelligenceModified) := by
  constructor
  · simp [ApplyIntelligence, hen, hav]
  · intro c m hm hm0
    have hf : IsForcedMate (some m) = true := by simp [IsForcedMate, hm0]
    by_cases hmp : 0 < m
    · refine ⟨?_, ?_, ?_, ?_⟩ <;>
        simp [evalStep, hf, hm, hmp, ratTruncToInt] <;>
          norm_num [floor_100000_q, ceil_neg_100000_q]
    · refine ⟨?_, ?_, ?_, ?_⟩ <;>
        simp [evalStep, hf, hm, hmp, ratTruncToInt] <;>
          norm_num [floor_100000_q, ceil_neg_100000_q]

/-- Witness for C3 on a concrete mate-in-one candidate. -/
theorem applyIntelligence_forced_mate_witness :
    (evalStep sEnabled 30 cMateEx).ScorePawns = (if 0 < (1:Int) then (1000:ℚ) else -1000) ∧
    (evalStep sEnabled 30 cMateEx).ScoreCP = (if 0 < (1:Int) then (100000:Int) else -100000) ∧
    (evalStep sEnabled 30 cMateEx).IntelligenceMultiplier = cMateEx.IntelligenceMultiplier ∧
    (evalStep sEnabled 30 cMateEx).IntelligenceModified = cMateEx.IntelligenceModified :=
  (applyIntelligence_forced_mate sEnabled 30 [cMateEx] rfl rfl).2 cMateEx 1 rfl (by norm_num)

/-- C4: with intelligence and avoidance enabled on a non-empty list, the
threshold in force is the configured value clamped into [-3, -1]; when
the post-pass best score is at or below it the call returns the input
list untouched, and otherwise the output has the input's length. -/
theorem applyIntelligence_avoidance
    (s : IntelligenceSettings) (vmc : Nat) (cs : List MoveCandidate)
    (hne : cs ≠ []) (hen : s.IntelligenceEnabled = true)
    (hav : s.AvoidLowIntelligence = true) :
    s.GetClampedThreshold = max (-3) (min (-1) s.LowIntelligenceThreshold) ∧
    (-3 ≤ s.GetClampedThreshold ∧ s.GetClampedThreshold ≤ -1) ∧
    (((cs.map (evalStep s vmc)).headD default).ScorePawns ≤ s.GetClampedThreshold →
       ApplyIntelligence s vmc cs = cs) ∧
    (¬ ((cs.map (evalStep s vmc)).headD default).ScorePawns ≤ s.GetClampedThreshold →
       (ApplyIntelligence s vmc cs).length = cs.length) := by
  have hdis : s.IsFullyDisabled = false := by
    simp [IntelligenceSettings.IsFullyDisabled, hen]
  have hsa : s.ShouldAvoidLowIntelligence = true := by
    simp [IntelligenceSettings.ShouldAvoidLowIntelligence, hen, hav]
  refine ⟨?_, ?_, ?_, ?_⟩
  · unfold IntelligenceSettings.GetClampedThreshold
    split_ifs with h1 h2
    · rw [min_eq_right (by linarith), max_eq_left (by linarith)]
    · rw [min_eq_left (by linarith), max_eq_right (by norm_num)]
    · rw [min_eq_right (by linarith), max_eq_right (by linarith)]
  · unfold IntelligenceSettings.GetClampedThreshold
    split_ifs with h1 h2 <;> constructor <;> linarith
  · intro hle
    cases cs with
    | nil => exact absurd rfl hne
    | cons c0 rest =>
        simp only [List.map_cons, List.headD_cons] at hle
        simp [ApplyIntelligence, hdis, hsa, hle]
  · intro hgt
    cases cs with
    | nil => exact absurd rfl hne
    | cons c0 rest =>
        simp only [List.map_cons, List.headD_cons] at hgt
        simp [ApplyIntelligence, hdis, hsa, hgt]

/-- Witness for C4: a single badly losing candidate trips the avoidance
fallback and the original list comes back unchanged. -/
theorem applyIntelligence_avoidance_witness :
    ApplyIntelligence sAvoidEx 30 [cLowEx] = [cLowEx] :=
  (applyIntelligence_avoidance sAvoidEx 30 [cLowEx] (by simp) rfl rfl).2.2.1 (by
    norm_num [evalStep, IsForcedMate, applyMultipliers, applyChessMultiplier,
      getPieceMultiplier, getMoveCharacteristicMultiplier,
      MoveCandidate.ApplyIntelligenceModification, cLowEx, sAvoidEx,
      NewDefaultIntelligenceSettings, NewMoveCandidate,
      IntelligenceSettings.GetClampedThreshold])

lemma handleAuth_blocked (a : AuthManager) (s : UserSession) (parts : List String)
    (h : maxFailedAttempts ≤ s.incorrectAttempts) :
    handleAuth a parts s = ("autherr", s) := by
  have hb : s.IsBlocked = true := by
    simp [UserSession.IsBlocked, maxFailedAttempts] at h ⊢
    exact h
  by_cases hl : parts.length < 2
  · simp [handleAuth, hl]
  · simp [handleAuth, hl, hb]

lemma handleAuth_wrong_key (a : AuthManager) (u : UserSession) (k : String)
    (hk : a.ValidateAuth k = false) (hb : u.IsBlocked = false) :
    handleAuth a ["auth", k] u
      = ("autherr", { u with incorrectAttempts := u.incorrectAttempts + 1 }) := by
  simp [handleAuth, hk, hb, UserSession.IncrementFailedAttempts]

/-- C6: the failed-attempt counter never decreases across any auth
command; a session with three or more failures is permanently failed
(every auth command, including one with the correct key, answers
autherr and leaves the session unchanged, over any sequence of further
auth commands); and three wrong-key auth commands from a fresh session
drive the counter to exactly three, after which every key is refused. -/
theorem auth_lockout (a : AuthManager) (s : UserSession) :
    (∀ parts, s.incorrectAttempts ≤ (handleAuth a parts s).2.incorrectAttempts) ∧
    (maxFailedAttempts ≤ s.incorrectAttempts →
       ∀ parts, (handleAuth a parts s).1 = "autherr" ∧ (handleAuth a parts s).2 = s) ∧
    (maxFailedAttempts ≤ s.incorrectAttempts →
       ∀ cmds r, r ∈ authResponses a s cmds → r = "autherr") ∧
    (s.incorrectAttempts = 0 →
       ∀ k1 k2 k3, a.ValidateAuth k1 = false → a.ValidateAuth k2 = false →
         a.ValidateAuth k3 = false →
         (afterThreeAuths a s k1 k2 k3).incorrectAttempts = 3 ∧
         ∀ key, (handleAuth a ["auth", key] (afterThreeAuths a s k1 k2 k3)).1 = "autherr") := by
  refine ⟨?_, ?_, ?_, ?_⟩
  · intro parts
    unfold handleAuth
    split_ifs <;>
      simp [UserSession.IncrementFailedAttempts, UserSession.Authenticate] <;>
      split_ifs <;> simp
  · intro h parts
    rw [handleAuth_blocked a s parts h]
    exact ⟨rfl, rfl⟩
  · intro h cmds
    induction cmds with
    | nil => intro r hr; simp [authResponses] at hr
    | cons p rest ih =>
        intro r hr
        rw [authResponses, handleAuth_blocked a s p h] at hr
        rcases List.mem_cons.mp hr with hr1 | hr2
        · exact hr1
        · exact ih r hr2
  · intro h0 k1 k2 k3 hk1 hk2 hk3
    have hb0 : s.IsBlocked = false := by
      simp [UserSession.IsBlocked, maxFailedAttempts, h0]
    unfold afterThreeAuths
    rw [handleAuth_wrong_key a s k1 hk1 hb0]
    have hb1 : ({ s with incorrectAttempts := s.incorrectAttempts + 1 } : UserSession).IsBlocked = false := by
      simp [UserSession.IsBlocked, maxFailedAttempts, h0]
    rw [handleAuth_wrong_key a _ k2 hk2 hb1]
    have hb2 : ({ s with incorrectAttempts := s.incorrectAttempts + 1 + 1 } : UserSession).IsBlocked = false := by
      simp [UserSession.IsBlocked, maxFailedAttempts, h0]
    rw [handleAuth_wrong_key a _ k3 hk3 hb2]
    constructor
    · simp [h0]
    · intro key
      rw [handleAuth_blocked]
      simp [h0, maxFailedAttempts]

/-- Witness for C6: three wrong keys on a fresh session, then even the
correct passkey is refused. -/
theorem auth_lockout_witness :
    (afterThreeAuths exAuthMgr (NewUserSession false) "a" "b" "c").incorrectAttempts = 3 ∧
    (handleAuth exAuthMgr ["auth", "secret"]
        (afterThreeAuths exAuthMgr (NewUserSession false) "a" "b" "c")).1 = "autherr" := by
  have h := (auth_lockout exAuthMgr (NewUserSession false)).2.2.2 rfl "a" "b" "c"
    (by decide) (by decide) (by decide)
  exact ⟨h.1, h.2 "secret"⟩

/-- C9: an inbound line that is none of the known commands goes down the
default branch: with write-auth required and the session unauthenticated
the reply is the auth-error token and the state is untouched; otherwise
there is no synchronous reply and the line is appended verbatim to the
engine input queue when it has room, or silently dropped when full. -/
theorem handleMessage_unknown_forwarded
    (st : ServerState) (conn : Nat) (message : String) (s : UserSession)
    (hreg : lookupConn st.connManager.connections conn = some s)
    (htrim : trimSpace message = message) (hne : message ≠ "")
    (hcmd : ((splitSpaces message).headD "") ∉
       (["whoareyou", "whatengine", "auth", "sub", "unsub", "lock", "unlock"] : List String)) :
    (st.authManager.requireAuthWrite = true → s.isAuthenticated = false →
       HandleMessage st conn message = (("autherr", true), st)) ∧
    ((st.authManager.requireAuthWrite = false ∨ s.isAuthenticated = true) →
       (HandleMessage st conn message).1 = ("", false) ∧
       (HandleMessage st conn message).2 =
         (if st.engineQueue.length < st.engineQueueCapacity then
            { st with engineQueue := st.engineQueue ++ [message] }
          else st)) := by
  simp only [List.mem_cons, List.not_mem_nil, or_false, not_or] at hcmd
  obtain ⟨h1, h2, h3, h4, h5, h6, h7⟩ := hcmd
  have hbody : HandleMessage st conn message = handleUCICommand st message s := by
    unfold HandleMessage
    rw [htrim]
    rw [if_neg hne, hreg]
    simp only [if_neg h1, if_neg h2, if_neg h3, if_neg h4, if_neg h5, if_neg h6, if_neg h7]
  constructor
  · intro hw ha
    rw [hbody]
    simp [handleUCICommand, AuthManager.RequiresAuthForWrite, hw, ha]
  · intro hcase
    have hgate : (st.authManager.RequiresAuthForWrite && !s.isAuthenticated) = false := by
      rcases hcase with hw | ha
      · simp [AuthManager.RequiresAuthForWrite, hw]
      · simp [ha]
    rw [hbody]
    by_cases hq : st.engineQueue.length < st.engineQueueCapacity
    · simp [handleUCICommand, hgate, hq]
    · simp [handleUCICommand, hgate, hq]

/-- Witness for C9: an unauthenticated session sending a raw engine
command under required write-auth gets the auth-error token with the
state untouched. -/
theorem handleMessage_unknown_forwarded_witness :
    HandleMessage stEx 7 "go depth 20" = (("autherr", true), stEx) :=
  (handleMessage_unknown_forwarded stEx 7 "go depth 20" (NewUserSession false)
      (by decide) (by decide) (by decide) (by decide)).1 rfl rfl

lemma lockInv_init : LockInv NewConnectionManager := by
  refine ⟨by simp [NewConnectionManager], ?_, ?_⟩
  · intro c hc
    simp [NewConnectionManager] at hc
  · intro c s hs _
    simp [NewConnectionManager, lookupConn] at hs

lemma lockInv_add (m : ConnectionManager) (conn : Nat) (autoAuth : Bool)
    (hfresh : lookupConn m.connections conn = none) (h : LockInv m) :
    LockInv (m.AddConnection conn (NewUserSession autoAuth)) := by
  obtain ⟨h1, h2, h3⟩ := h
  refine ⟨h1, ?_, ?_⟩
  · intro c hc
    obtain ⟨s, hs, hl⟩ := h2 c hc
    have hcne : c ≠ conn := by
      intro he
      subst he
      rw [hfresh] at hs
      exact Option.noConfusion hs
    refine ⟨s, ?_, hl⟩
    simp [ConnectionManager.AddConnection, lookupConn, Ne.symm hcne]
    rw [lookupConn_eraseConn_ne conn c m.connections hcne]
    exact hs
  · intro c s hs hl
    by_cases hc : conn = c
    · subst hc
      simp [ConnectionManager.AddConnection, lookupConn] at hs
      rw [← hs] at hl
      simp [NewUserSession] at hl
    · simp [ConnectionManager.AddConnection, lookupConn, hc] at hs
      rw [lookupConn_eraseConn_ne conn c m.connections (fun he => hc he.symm)] at hs
      exact h3 c s hs hl

lemma lockInv_tryAcquire (m : ConnectionManager) (conn : Nat)
    (hreg : (lookupConn m.connections conn).isSome = true) (h : LockInv m) :
    LockInv (m.TryAcquireEngineLock conn).2 := by
  obtain ⟨h1, h2, h3⟩ := h
  by_cases hlk : m.engineLocked = true
  · simp only [ConnectionManager.TryAcquireEngineLock, hlk, if_true]
    exact ⟨h1, h2, h3⟩
  · have hnone : m.lockHolder = none := by
      by_contra hn
      exact hlk (h1.mpr hn)
    obtain ⟨s0, hs0⟩ : ∃ s0, lookupConn m.connections conn = some s0 := by
      cases hlc : lookupConn m.connections conn with
      | none => rw [hlc] at hreg; simp at hreg
      | some v => exact ⟨v, rfl⟩
    have hres : (m.TryAcquireEngineLock conn).2 =
        { m with engineLocked := true, lockHolder := some conn, connections := updateConn conn (fun s => s.AcquireLock) m.connections } := by
      simp [ConnectionManager.TryAcquireEngineLock, hlk, hs0]
    rw [hres]
    refine ⟨by simp, ?_, ?_⟩
    · intro c hc
      simp at hc
      subst hc
      refine ⟨s0.AcquireLock, ?_, by simp [UserSession.AcquireLock]⟩
      rw [lookupConn_updateConn_self]
      simp [hs0]
    · intro c s hs hl
      by_cases hc : c = conn
      · subst hc
        simp
      · simp at hs
        rw [lookupConn_updateConn_ne conn c (fun s => s.AcquireLock) m.connections hc] at hs
        have := h3 c s hs hl
        rw [hnone] at this
        exact Option.noConfusion this

lemma lockInv_unlock (m : ConnectionManager) (conn : Nat) (h : LockInv m) :
    LockInv (handleUnlockLock m conn) := by
  obtain ⟨h1, h2, h3⟩ := h
  unfold handleUnlockLock
  cases hlc : lookupConn m.connections conn with
  | none => exact ⟨h1, h2, h3⟩
  | some session =>
      by_cases hhl : session.hasLock = true
      · have hold : m.lockHolder = some conn := h3 conn session hlc hhl
        have hlk : m.engineLocked = true := h1.mpr (by rw [hold]; simp)
        have hrel : m.ReleaseEngineLock conn =
            (true, { m with engineLocked := false, lockHolder := none }) := by
          simp [ConnectionManager.ReleaseEngineLock,
            ConnectionManager.releaseEngineLockInternal, hlk, hold]
        simp only [hhl, not_true, if_false, hrel, if_true]
        refine ⟨by simp, ?_, ?_⟩
        · intro c hc
          simp at hc
        · intro c s hs hl
          simp at hs
          by_cases hc : c = conn
          · subst hc
            rw [lookupConn_updateConn_self] at hs
            rw [hlc] at hs
            simp [UserSession.ReleaseLock] at hs
            rw [← hs] at hl
            simp at hl
          · rw [lookupConn_updateConn_ne conn c (fun u => u.ReleaseLock) m.connections hc] at hs
            have := h3 c s hs hl
            rw [hold] at this
            exact absurd (Option.some.inj this).symm hc
      · simp only [hhl, not_false_iff, if_true]
        exact ⟨h1, h2, h3⟩

lemma lockInv_remove (m : ConnectionManager) (conn : Nat) (h : LockInv m) :
    LockInv (m.RemoveConnection conn) := by
  obtain ⟨h1, h2, h3⟩ := h
  unfold ConnectionManager.RemoveConnection
  cases hlc : lookupConn m.connections conn with
  | none => exact ⟨h1, h2, h3⟩
  | some session =>
      by_cases hhl : session.hasLock = true
      · have hold : m.lockHolder = some conn := h3 conn session hlc hhl
        have hlk : m.engineLocked = true := h1.mpr (by rw [hold]; simp)
        have hrel : m.releaseEngineLockInternal conn =
            (true, { m with engineLocked := false, lockHolder := none }) := by
          simp [ConnectionManager.releaseEngineLockInternal, hlk, hold]
        simp only [hhl, if_true, hrel]
        refine ⟨by simp, ?_, ?_⟩
        · intro c hc
          simp at hc
        · intro c s hs hl
          simp at hs
          by_cases hc : c = conn
          · subst hc
            rw [lookupConn_eraseConn_self] at hs
            exact Option.noConfusion hs
          · rw [lookupConn_eraseConn_ne conn c m.connections hc] at hs
            have := h3 c s hs hl
            rw [hold] at this
            exact absurd (Option.some.inj this).symm hc
      · simp only [hhl, if_false]
        refine ⟨h1, ?_, ?_⟩
        · intro c hc
          simp at hc
          obtain ⟨s, hs, hl⟩ := h2 c hc
          have hcne : c ≠ conn := by
            intro he
            subst he
            rw [hlc] at hs
            rw [← Option.some.inj hs] at hl
            exact hhl hl
          refine ⟨s, ?_, hl⟩
          simp
          rw [lookupConn_eraseConn_ne conn c m.connections hcne]
          exact hs
        · intro c s hs hl
          simp at hs
          by_cases hc : c = conn
          · subst hc
            rw [lookupConn_eraseConn_self] at hs
            exact Option.noConfusion hs
          · rw [lookupConn_eraseConn_ne conn c m.connections hc] at hs
            exact h3 c s hs hl

lemma reachable_lockInv (m : ConnectionManager) (h : ReachableCM m) : LockInv m := by
  induction h with
  | init => exact lockInv_init
  | step m m' hr hs ih =>
      cases hs with
      | add conn autoAuth hfresh => exact lockInv_add m conn autoAuth hfresh ih
      | lockCmd conn hreg => exact lockInv_tryAcquire m conn hreg ih
      | unlockCmd conn => exact lockInv_unlock m conn ih
      | remove conn => exact lockInv_remove m conn ih

/-- C7: in every reachable connection-manager state the engine lock is
exclusive: the holder is unique (both as the recorded holder and as the
registered session flagged as holding), TryAcquireEngineLock fails
whenever the lock is held, ReleaseEngineLock fails for a non-holder and
succeeds for the holder, and removing the holder's connection frees the
lock so that a subsequent acquire by any connection succeeds. -/
theorem engine_lock_exclusive (m : ConnectionManager) (hm : ReachableCM m) :
    (∀ c1 c2, m.lockHolder = some c1 → m.lockHolder = some c2 → c1 = c2) ∧
    (∀ c1 s1 c2 s2, lookupConn m.connections c1 = some s1 →
       lookupConn m.connections c2 = some s2 →
       s1.hasLock = true → s2.hasLock = true → c1 = c2) ∧
    (∀ c, m.engineLocked = true → (m.TryAcquireEngineLock c).1 = false) ∧
    (∀ c, m.lockHolder ≠ some c → (m.ReleaseEngineLock c).1 = false) ∧
    (∀ c, m.lockHolder = some c → (m.ReleaseEngineLock c).1 = true) ∧
    (∀ hconn b, m.lockHolder = some hconn →
       ((m.RemoveConnection hconn).TryAcquireEngineLock b).1 = true) := by
  obtain ⟨h1, h2, h3⟩ := reachable_lockInv m hm
  refine ⟨?_, ?_, ?_, ?_, ?_, ?_⟩
  · intro c1 c2 e1 e2
    rw [e1] at e2
    exact Option.some.inj e2
  · intro c1 s1 c2 s2 hs1 hs2 hl1 hl2
    have e1 := h3 c1 s1 hs1 hl1
    have e2 := h3 c2 s2 hs2 hl2
    rw [e1] at e2
    exact Option.some.inj e2
  · intro c hlk
    simp [ConnectionManager.TryAcquireEngineLock, hlk]
  · intro c hne
    simp [ConnectionManager.ReleaseEngineLock,
      ConnectionManager.releaseEngineLockInternal, hne]
  · intro c he
    have hlk : m.engineLocked = true := h1.mpr (by rw [he]; simp)
    simp [ConnectionManager.ReleaseEngineLock,
      ConnectionManager.releaseEngineLockInternal, hlk, he]
  · intro hconn b he
    obtain ⟨s, hs, hl⟩ := h2 hconn he
    have hlk : m.engineLocked = true := h1.mpr (by rw [he]; simp)
    have hrel : m.releaseEngineLockInternal hconn =
        (true, { m with engineLocked := false, lockHolder := none }) := by
      simp [ConnectionManager.releaseEngineLockInternal, hlk, he]
    have hrm : m.RemoveConnection hconn =
        { m with engineLocked := false, lockHolder := none, connections := eraseConn hconn m.connections } := by
      unfold ConnectionManager.RemoveConnection
      rw [hs]
      simp [hl, hrel]
    rw [hrm]
    simp [ConnectionManager.TryAcquireEngineLock]

/-- Witness for C7: with connections 0 and 1 registered and the lock
taken by 0, a lock attempt by 1 fails. -/
theorem engine_lock_exclusive_witness :
    (mgrLockedEx.TryAcquireEngineLock 1).1 = false := by
  have hreach : ReachableCM mgrLockedEx := by
    unfold mgrLockedEx
    exact ReachableCM.step _ _
      (ReachableCM.step _ _
        (ReachableCM.step _ _ ReachableCM.init (ServerStep.add _ 0 false (by decide)))
        (ServerStep.add _ 1 false (by decide)))
      (ServerStep.lockCmd _ 0 (by decide))
  exact (engine_lock_exclusive mgrLockedEx hreach).2.2.1 1 (by decide)
